import Mathlib

/-!
Shallow embedding of the CI-V protocol engine of the IC-7300 web controller
(`ic7300.js`): BCD frequency conversion, frame parsing, the frame extractor's
byte loop, CW keyer timing, the meter-response dispatch, and the debounced
telemetry notifier.  Each definition mirrors the JavaScript function of the
same name; machine bytes are modelled as `Nat`, millisecond durations as `ℚ`.
-/

namespace IC7300

/-- Digit `freqStr[9 - k]` of the 10-digit zero-padded decimal string of `f`
(`f < 10^10`), i.e. the decimal digit of weight `10 ^ k`. -/
def natDigit (f k : Nat) : Nat := f / 10 ^ k % 10

/-- Model of `frequencyToBCD` (ic7300.js lines 92-106): pack the 10 decimal digits of
the frequency into 5 bytes, little-endian, each byte's high nibble holding the
more significant digit of its pair.  The loop `for i in 0..4` pushes
`(freqStr[9-2i-1] << 4) | freqStr[9-2i]`. -/
def frequencyToBCD (freqHz : Nat) : List Nat :=
  (List.range 5).map fun i =>
    natDigit freqHz (2 * i + 1) * 16 + natDigit freqHz (2 * i)

/-- Model of `bcdToFrequency` (ic7300.js lines 109-119): iterate the bytes from last to
first, emitting the high then low nibble as decimal digits; the resulting
digit string read as a number is the fold `acc * 100 + hi * 10 + lo`. -/
def bcdToFrequency (bcd : List Nat) : Nat :=
  bcd.foldr (fun b acc => acc * 100 + b / 16 % 16 * 10 + b % 16) 0

/-- C1: decoding the 5-byte packed-BCD encoding of any `f ≤ 9999999999`
yields `f` back exactly. -/
theorem bcd_roundtrip (f : Nat) (h : f ≤ 9999999999) :
    bcdToFrequency (frequencyToBCD f) = f := by
  have hhi : ∀ a b : Nat, a < 10 → b < 10 → (a * 16 + b) / 16 % 16 = a := by
    intro a b ha hb; omega
  have hlo : ∀ a b : Nat, a < 10 → b < 10 → (a * 16 + b) % 16 = b := by
    intro a b ha hb; omega
  have hrange : List.range 5 = [0, 1, 2, 3, 4] := rfl
  have hd : ∀ k : Nat, natDigit f k < 10 := fun k => Nat.mod_lt _ (by norm_num)
  simp only [frequencyToBCD, bcdToFrequency, hrange, List.map_cons,
    List.map_nil, List.foldr_cons, List.foldr_nil,
    show (2 * 0 + 1 : Nat) = 1 from rfl, show (2 * 0 : Nat) = 0 from rfl,
    show (2 * 1 + 1 : Nat) = 3 from rfl, show (2 * 1 : Nat) = 2 from rfl,
    show (2 * 2 + 1 : Nat) = 5 from rfl, show (2 * 2 : Nat) = 4 from rfl,
    show (2 * 3 + 1 : Nat) = 7 from rfl, show (2 * 3 : Nat) = 6 from rfl,
    show (2 * 4 + 1 : Nat) = 9 from rfl, show (2 * 4 : Nat) = 8 from rfl]
  rw [hhi _ _ (hd 1) (hd 0), hlo _ _ (hd 1) (hd 0), hhi _ _ (hd 3) (hd 2),
    hlo _ _ (hd 3) (hd 2), hhi _ _ (hd 5) (hd 4), hlo _ _ (hd 5) (hd 4),
    hhi _ _ (hd 7) (hd 6), hlo _ _ (hd 7) (hd 6), hhi _ _ (hd 9) (hd 8),
    hlo _ _ (hd 9) (hd 8)]
  simp only [natDigit, show (10 : Nat) ^ 0 = 1 from rfl,
    show (10 : Nat) ^ 1 = 10 from rfl, show (10 : Nat) ^ 2 = 100 from rfl,
    show (10 : Nat) ^ 3 = 1000 from rfl, show (10 : Nat) ^ 4 = 10000 from rfl,
    show (10 : Nat) ^ 5 = 100000 from rfl, show (10 : Nat) ^ 6 = 1000000 from rfl,
    show (10 : Nat) ^ 7 = 10000000 from rfl, show (10 : Nat) ^ 8 = 100000000 from rfl,
    show (10 : Nat) ^ 9 = 1000000000 from rfl, Nat.div_one]
  omega

/-- C1 witness: the round-trip at the concrete frequency 14 074 000 Hz. -/
theorem bcd_roundtrip_witness :
    14074000 ≤ 9999999999 ∧ bcdToFrequency (frequencyToBCD 14074000) = 14074000 :=
  ⟨by norm_num, bcd_roundtrip 14074000 (by norm_num)⟩

/-- A decoded CI-V frame as built by `parseResponse` (ic7300.js lines 147-152):
the source assigns `from = data[2]` and `to = data[3]`. -/
structure Frame where
  fromAddr : Nat
  toAddr : Nat
  cmd : Nat
  payload : List Nat
deriving DecidableEq

/-- Model of `parseResponse` (ic7300.js lines 141-153): reject when the packet is
shorter than 6 bytes, does not start with `FE FE`, or does not end with `FD`;
otherwise `from := data[2]`, `to := data[3]`, `cmd := data[4]`,
`payload := data.slice(5, -1)`. -/
def parseResponse (data : List Nat) : Option Frame :=
  if data.length < 6 then none
  else if data.getD 0 0 ≠ 254 ∨ data.getD 1 0 ≠ 254 then none
  else if data.getD (data.length - 1) 0 ≠ 253 then none
  else some { fromAddr := data.getD 2 0, toAddr := data.getD 3 0,
              cmd := data.getD 4 0, payload := (data.drop 5).dropLast }

/-- C3: `parseResponse` fails exactly when the sequence is shorter than 6
bytes, or its first two bytes are not `FE FE`, or its last byte is not `FD`;
on every other input it returns a structured frame. -/
theorem parseResponse_none_iff (data : List Nat) :
    parseResponse data = none ↔
      data.length < 6 ∨ data.getD 0 0 ≠ 254 ∨ data.getD 1 0 ≠ 254 ∨
        data.getD (data.length - 1) 0 ≠ 253 := by
  unfold parseResponse
  split_ifs with h1 h2 h3 <;> simp_all
  tauto

/-- C4: on the accepted wire frame `FE FE 94 E0 03 FD` the decoder assigns
`to := data[3] = 0xE0` (the fourth byte) and `from := data[2] = 0x94` (the
third byte) — the opposite of the wire layout `FE FE <to> <from>` that
`buildCommand` itself documents and emits. -/
theorem parseResponse_addresses_swapped :
    (parseResponse [254, 254, 148, 224, 3, 253]).map Frame.toAddr = some 224 ∧
      (parseResponse [254, 254, 148, 224, 3, 253]).map Frame.fromAddr = some 148 ∧
      (parseResponse [254, 254, 148, 224, 3, 253]).map Frame.toAddr ≠ some 148 := by
  decide

/-- The backward preamble scan of `readLoop` (ic7300.js lines 251-257):
`for (let i = buffer.length - 3; i >= 0; i--)` returning the first (largest)
`i` with `buffer[i] = buffer[i+1] = 0xFE`.  `scanBack buf i` scans downward
from index `i`. -/
def scanBack (buf : List Nat) : Nat → Option Nat
  | 0 => if buf.getD 0 0 = 254 ∧ buf.getD 1 0 = 254 then some 0 else none
  | i + 1 =>
    if buf.getD (i + 1) 0 = 254 ∧ buf.getD (i + 2) 0 = 254 then some (i + 1)
    else scanBack buf i

/-- One iteration of the byte loop of `readLoop` (ic7300.js lines 245-264):
push the byte; when it is `0xFD` and the buffer holds at least 6 bytes, scan
backward from `length - 3` for `FE FE`; on a hit, `buffer.splice(startIdx)`
removes and returns the suffix from the marker on — bytes before the marker
stay in the buffer.  Returns the new buffer and the extracted packets. -/
def feedByte (buf : List Nat) (b : Nat) : List Nat × List (List Nat) :=
  let buf2 := buf ++ [b]
  if b = 253 ∧ 6 ≤ buf2.length then
    match scanBack buf2 (buf2.length - 3) with
    | some startIdx => (buf2.take startIdx, [buf2.drop startIdx])
    | none => (buf2, [])
  else (buf2, [])

/-- One received chunk of `readLoop` (ic7300.js lines 244-269): run `feedByte`
over each byte, then truncate the buffer to its most recent 50 bytes when it
exceeds 100. -/
def feedChunk (buf : List Nat) (bytes : List Nat) : List Nat × List (List Nat) :=
  let r := bytes.foldl
    (fun (acc : List Nat × List (List Nat)) b =>
      let fb := feedByte acc.1 b
      (fb.1, acc.2 ++ fb.2))
    (buf, [])
  if 100 < r.1.length then (r.1.drop (r.1.length - 50), r.2) else r

/-- The spec's frame-extractor example input `[AA, FE FE 94 E0 03 00 00 00 00 00 FD]`. -/
def noisyChunk : List Nat :=
  [170, 254, 254, 148, 224, 3, 0, 0, 0, 0, 0, 253]

/-- C2 counterexample: on the example input the extractor emits the frame
`bytes[1..12]` but the leading noise byte `0xAA` is NOT discarded — it remains
in the buffer, refuting "removes that slice and everything before it". -/
theorem feedChunk_keeps_noise_byte :
    (feedChunk [] noisyChunk).2 = [[254, 254, 148, 224, 3, 0, 0, 0, 0, 0, 253]] ∧
      (feedChunk [] noisyChunk).1 ≠ [] := by
  decide

/-- C2 amended: when the appended byte is the terminator and the buffer holds
at least 6 bytes, the extractor scans backward for the nearest preceding
`FE FE` marker and removes exactly the slice from that marker through the
terminator, leaving the bytes before the marker in the buffer: fed the example
input it yields one frame equal to `bytes[1..12]` and the buffer retains the
noise byte `0xAA`. -/
theorem feedChunk_noisy_example :
    feedChunk [] noisyChunk = ([170], [[254, 254, 148, 224, 3, 0, 0, 0, 0, 0, 253]]) := by
  decide

/-- Derived unit timings of `getCWTiming` (ic7300.js lines 660-670), in
milliseconds. -/
structure CWTiming where
  dot : ℚ
  dash : ℚ
  symbolSpace : ℚ
  letterSpace : ℚ
  wordSpace : ℚ
deriving DecidableEq

/-- Model of `getCWTiming` (ic7300.js lines 660-670): standard PARIS timing,
`dotDuration = 1200 / wpm` ms; dash and letter space are 3 units, word space
7 units. -/
def getCWTiming (wpm : Nat) : CWTiming :=
  let dotDuration : ℚ := 1200 / wpm
  { dot := dotDuration
    dash := dotDuration * 3
    symbolSpace := dotDuration
    letterSpace := dotDuration * 3
    wordSpace := dotDuration * 7 }

/-- Model of `MORSE_CODE` (ic7300.js lines 644-655): dot/dash pattern per character,
space mapping to a word gap, anything else undefined. -/
def MORSE_CODE : Char → Option String
  | 'A' => some ".-"
  | 'B' => some "-..."
  | 'C' => some "-.-."
  | 'D' => some "-.."
  | 'E' => some "."
  | 'F' => some "..-."
  | 'G' => some "--."
  | 'H' => some "...."
  | 'I' => some ".."
  | 'J' => some ".---"
  | 'K' => some "-.-"
  | 'L' => some ".-.."
  | 'M' => some "--"
  | 'N' => some "-."
  | 'O' => some "---"
  | 'P' => some ".--."
  | 'Q' => some "--.-"
  | 'R' => some ".-."
  | 'S' => some "..."
  | 'T' => some "-"
  | 'U' => some "..-"
  | 'V' => some "...-"
  | 'W' => some ".--"
  | 'X' => some "-..-"
  | 'Y' => some "-.--"
  | 'Z' => some "--.."
  | '0' => some "-----"
  | '1' => some ".----"
  | '2' => some "..---"
  | '3' => some "...--"
  | '4' => some "....-"
  | '5' => some "....."
  | '6' => some "-...."
  | '7' => some "--..."
  | '8' => some "---.."
  | '9' => some "----."
  | '/' => some "-..-."
  | '?' => some "..--.."
  | '.' => some ".-.-.-"
  | ',' => some "--..--"
  | '=' => some "-...-"
  | '+' => some ".-.-."
  | '-' => some "-....-"
  | ' ' => some " "
  | _ => none

/-- Observable timeline of the keyer: high pulses and low gaps on the signal
line (`keyDown`/`keyUp` around a timed wait), PTT commands, and the fixed
settle delays of `sendCWMessage`. -/
inductive KeyEv
  | pulse (ms : ℚ)
  | gap (ms : ℚ)
  | pttOn
  | pttOff
  | settle (ms : ℚ)
deriving DecidableEq

/-- The symbol loop of `sendMorseChar` (ic7300.js lines 718-735) for an
uncancelled session (`cwKeying` stays true): key down for the dot or dash
duration, key up, and wait the intra-symbol gap between symbols of the same
character. -/
def symbolPulses (t : CWTiming) : List Char → List KeyEv
  | [] => []
  | [s] => [.pulse (if s = '.' then t.dot else t.dash)]
  | s :: rest =>
    .pulse (if s = '.' then t.dot else t.dash) :: .gap t.symbolSpace ::
      symbolPulses t rest

/-- Model of `sendMorseChar` (ic7300.js lines 703-739), as the timeline it produces
when never cancelled: unknown characters are skipped, a space waits
`wordSpace - letterSpace`, otherwise the symbol pulses are followed by the
inter-letter gap. -/
def sendMorseChar (c : Char) (t : CWTiming) : List KeyEv :=
  match MORSE_CODE c.toUpper with
  | none => []
  | some m =>
    if m = " " then [.gap (t.wordSpace - t.letterSpace)]
    else symbolPulses t m.data ++ [.gap t.letterSpace]

/-- The transmission body of `sendCWMessage` (ic7300.js lines 742-811) for an
uncancelled session: PTT on, 100 ms settle, each character's timeline at the
timing derived from the requested WPM — which the source passes to
`getCWTiming` without clamping (line 755-756) — then 100 ms settle and PTT
off. -/
def sendCWMessageTrace (message : List Char) (wpm : Nat) : List KeyEv :=
  let timing := getCWTiming wpm
  [.pttOn, .settle 100] ++
    (message.map fun c => sendMorseChar c timing).flatten ++
    [.settle 100, .pttOff]

/-- C5: at 20 WPM the unit is 60 ms; "E" is one 60 ms pulse then a 180 ms
inter-letter gap before PTT release, "A" is a 60 ms pulse, 60 ms gap, 180 ms
pulse, then a 180 ms inter-letter gap. -/
theorem cw_timing_20wpm :
    (getCWTiming 20).dot = 60 ∧
      sendMorseChar 'E' (getCWTiming 20) = [.pulse 60, .gap 180] ∧
      sendMorseChar 'A' (getCWTiming 20) =
        [.pulse 60, .gap 60, .pulse 180, .gap 180] ∧
      sendCWMessageTrace ['E'] 20 =
        [.pttOn, .settle 100, .pulse 60, .gap 180, .settle 100, .pttOff] := by
  have h20 : getCWTiming 20 = ⟨60, 180, 60, 180, 420⟩ := by
    unfold getCWTiming
    norm_num [CWTiming.mk.injEq]
  refine ⟨by rw [h20], ?_, ?_, ?_⟩
  · rw [h20]; rfl
  · rw [h20]; rfl
  · simp only [sendCWMessageTrace]
    rw [h20]; rfl

/-- The clamp of `setKeyerSpeed` (ic7300.js line 437): `Math.max(6, Math.min(48, wpm))`.
This clamp is applied only in `setKeyerSpeed`, not in `sendCWMessage`. -/
def clampWpm (wpm : Nat) : Nat := max 6 (min 48 wpm)

/-- The unit duration a keyer session actually uses (ic7300.js lines 755-756):
`getCWTiming` is called on the requested WPM directly. -/
def keyerSessionUnit (wpm : Nat) : ℚ := (getCWTiming wpm).dot

/-- C7 counterexample: a session started at 100 WPM keys with a 12 ms unit,
not the 25 ms unit that clamping to [6, 48] would give. -/
theorem keyer_wpm_not_clamped :
    keyerSessionUnit 100 = 12 ∧ (getCWTiming (clampWpm 100)).dot = 25 ∧
      keyerSessionUnit 100 ≠ (getCWTiming (clampWpm 100)).dot := by
  have hc : clampWpm 100 = 48 := by decide
  refine ⟨by norm_num [keyerSessionUnit, getCWTiming], ?_, ?_⟩
  · rw [hc]; norm_num [getCWTiming]
  · rw [hc]; norm_num [keyerSessionUnit, getCWTiming]

/-- C7 amended: the keyer session derives its timings from the requested WPM
without clamping: for every `wpm`, keying "E" pulses for exactly
`1200 / wpm` ms and gaps for `(1200 / wpm) * 3` ms. -/
theorem keyer_uses_unclamped_wpm (wpm : Nat) :
    sendCWMessageTrace ['E'] wpm =
      [.pttOn, .settle 100, .pulse (1200 / (wpm : ℚ)),
       .gap (1200 / (wpm : ℚ) * 3), .settle 100, .pttOff] := by
  rfl

/-- Outcome of entering `sendCWMessage` (ic7300.js lines 742-773). -/
inductive CWStartResult
  | notConnected
  | emptyMessage
  | started
deriving DecidableEq

/-- The entry guards and keying-flag update of `sendCWMessage` (ic7300.js
lines 742-773): bail out when not connected or the trimmed message is empty;
otherwise set `cwKeying := true` and proceed — there is no check of the
current `cwKeying` flag, so an active session is never reported as busy. -/
def sendCWMessageEntry (isConnected hasPort : Bool) (message : List Char)
    (cwKeying : Bool) : CWStartResult × Bool :=
  if isConnected = false ∨ hasPort = false then (.notConnected, cwKeying)
  else if message = [] then (.emptyMessage, cwKeying)
  else (.started, true)

/-- C6: with a session already active (`cwKeying = true`), a second
`sendCWMessage` call still starts (no Busy outcome exists in the code); the
claimed Busy failure is the spec's intended behavior, not the code's. -/
theorem second_session_not_rejected :
    sendCWMessageEntry true true ['E'] true = (.started, true) := by
  decide

/-- The meter branch of `handleResponse` (ic7300.js lines 334-354): for a
`0x15` response with at least 3 payload bytes, sub-command `0x02` updates the
bargraph in RX form only when `pttActive` is false, sub-command `0x11` updates
it in TX form only when `pttActive` is true; every other case leaves the
displayed meter (and everything else) untouched.  `display` is the last
bargraph update `(value, isTx)`; the branch mutates no other state. -/
def handleMeterResponse (pttActive : Bool) (payload : List Nat)
    (display : Option (Nat × Bool)) : Option (Nat × Bool) :=
  if 3 ≤ payload.length then
    let subCmd := payload.getD 0 0
    let value := payload.getD 1 0 <<< 8 ||| payload.getD 2 0
    if subCmd = 2 then
      if pttActive = false then some (value, false) else display
    else if subCmd = 17 then
      if pttActive = true then some (value, true) else display
    else display
  else display

/-- C8: an S-meter reading (sub-command `0x02`) arriving while PTT is true is
discarded, and a power-meter reading (sub-command `0x11`) arriving while PTT
is false is discarded — the displayed meter is unchanged in both cases. -/
theorem meter_wrong_ptt_discarded (rest : List Nat) (display : Option (Nat × Bool)) :
    handleMeterResponse true (2 :: rest) display = display ∧
      handleMeterResponse false (17 :: rest) display = display := by
  unfold handleMeterResponse
  constructor <;> split_ifs <;> simp_all

/-- State of the change tracker and telemetry notifier (ic7300.js lines
40-43): the last decoded frequency and mode (both start unknown), the pending
debounce timer modelled as the absolute time at which it would fire, and the
reports handed to `sendToWavelog`, each recorded as
`(fire time, lastFrequencyHz, lastModeCode)` as read when the timer fires. -/
structure TrackState where
  lastFrequencyHz : Option Nat
  lastModeCode : Option Nat
  timerDeadline : Option Nat
  reports : List (Nat × Option Nat × Option Nat)
deriving DecidableEq

/-- Startup state: nothing decoded yet, no timer pending, nothing sent. -/
def initTrackState : TrackState := ⟨none, none, none, []⟩

/-- Constant `WAVELOG_DEBOUNCE_MS` (ic7300.js line 43). -/
def WAVELOG_DEBOUNCE_MS : Nat := 500

/-- A pending `setTimeout` callback whose deadline has passed runs before the
next event is processed: it sends the current `(lastFrequencyHz,
lastModeCode)` pair and clears the timer handle (ic7300.js lines 1112-1115).
State only changes at events, so the values read at the deadline equal the
current ones. -/
def fireTimerIfDue (now : Nat) (s : TrackState) : TrackState :=
  match s.timerDeadline with
  | none => s
  | some d =>
    if d ≤ now then
      { s with timerDeadline := none
               reports := s.reports ++ [(d, s.lastFrequencyHz, s.lastModeCode)] }
    else s

/-- Model of `onRadioStateChanged` (ic7300.js lines 1104-1117): only when both a
frequency and a mode have been decoded, clear any pending debounce timer and
arm a new one 500 ms from now. -/
def onRadioStateChanged (now : Nat) (s : TrackState) : TrackState :=
  if s.lastFrequencyHz.isSome ∧ s.lastModeCode.isSome then
    { s with timerDeadline := some (now + WAVELOG_DEBOUNCE_MS) }
  else s

/-- A decoded frequency or mode response, as dispatched by `handleResponse`. -/
inductive RadioEv
  | freqFrame (hz : Nat)
  | modeFrame (code : Nat)
deriving DecidableEq

/-- The frequency/mode branches of `handleResponse` (ic7300.js lines 301-331)
at time `now`: first run any due timer callback, then — when a prior value
exists and differs — call `onRadioStateChanged`, then store the new value. -/
def handleRadioEv (now : Nat) (s : TrackState) : RadioEv → TrackState
  | .freqFrame hz =>
    let s1 := fireTimerIfDue now s
    let s2 :=
      if s1.lastFrequencyHz.isSome ∧ s1.lastFrequencyHz ≠ some hz then
        onRadioStateChanged now s1
      else s1
    { s2 with lastFrequencyHz := some hz }
  | .modeFrame code =>
    let s1 := fireTimerIfDue now s
    let s2 :=
      if s1.lastModeCode.isSome ∧ s1.lastModeCode ≠ some code then
        onRadioStateChanged now s1
      else s1
    { s2 with lastModeCode := some code }

/-- Process a timeline of decoded responses in time order. -/
def runRadioEvents (s : TrackState) : List (Nat × RadioEv) → TrackState
  | [] => s
  | (t, e) :: rest => runRadioEvents (handleRadioEv t s e) rest

/-- After the timeline goes silent, a still-pending debounce timer fires at
its deadline with the latest known pair. -/
def flushTimer (s : TrackState) : TrackState :=
  match s.timerDeadline with
  | none => s
  | some d =>
    { s with timerDeadline := none
             reports := s.reports ++ [(d, s.lastFrequencyHz, s.lastModeCode)] }

/-- The C9 scenario: seed frames establish frequency 7 000 000 Hz and mode 3,
then five frequency-change events at t = 0, 100, 200, 300, 400 ms. -/
def c9Timeline : List (Nat × RadioEv) :=
  [(0, .freqFrame 7000000), (0, .modeFrame 3),
   (0, .freqFrame 7000100), (100, .freqFrame 7000200), (200, .freqFrame 7000300),
   (300, .freqFrame 7000400), (400, .freqFrame 7000500)]

/-- C9: five change events at t = 0..400 ms followed by silence yield exactly
one report, fired at t = 900 ms (500 ms after the last event) with the state
of the t = 400 ms event; the deadline visibly rearms on each event (after the
t = 300 ms event it stands at 800 ms). -/
theorem debounce_single_report :
    (flushTimer (runRadioEvents initTrackState c9Timeline)).reports
        = [(900, some 7000500, some 3)] ∧
      (runRadioEvents initTrackState c9Timeline).timerDeadline = some 900 ∧
      (runRadioEvents initTrackState (c9Timeline.take 6)).timerDeadline = some 800 := by
  decide

/-- Telemetry invariant: a pending debounce timer implies both a frequency
and a mode have been decoded, and every recorded report carries a non-null
frequency and mode. -/
def trackInv (s : TrackState) : Prop :=
  (s.timerDeadline.isSome → s.lastFrequencyHz.isSome ∧ s.lastModeCode.isSome) ∧
    ∀ r ∈ s.reports, r.2.1.isSome ∧ r.2.2.isSome

theorem trackInv_init : trackInv initTrackState := by
  constructor
  · intro h; simp [initTrackState] at h
  · intro r hr; simp [initTrackState] at hr

theorem trackInv_fireTimerIfDue (now : Nat) (s : TrackState) (h : trackInv s) :
    trackInv (fireTimerIfDue now s) := by
  obtain ⟨h1, h2⟩ := h
  cases hd : s.timerDeadline with
  | none =>
    have hred : fireTimerIfDue now s = s := by simp [fireTimerIfDue, hd]
    rw [hred]; exact ⟨h1, h2⟩
  | some d =>
    by_cases hle : d ≤ now
    · have hred : fireTimerIfDue now s =
          { s with timerDeadline := none,
                   reports := s.reports ++
                     [(d, s.lastFrequencyHz, s.lastModeCode)] } := by
        simp [fireTimerIfDue, hd, hle]
      rw [hred]
      refine ⟨by simp, ?_⟩
      intro r hr
      simp only [List.mem_append, List.mem_singleton] at hr
      rcases hr with hr | hr
      · exact h2 r hr
      · subst hr
        have hb := h1 (by simp [hd])
        simpa using hb
    · have hred : fireTimerIfDue now s = s := by simp [fireTimerIfDue, hd, hle]
      rw [hred]; exact ⟨h1, h2⟩

theorem trackInv_onRadioStateChanged (now : Nat) (s : TrackState) (h : trackInv s) :
    trackInv (onRadioStateChanged now s) := by
  obtain ⟨h1, h2⟩ := h
  unfold onRadioStateChanged
  split_ifs with hb
  · exact ⟨fun _ => hb, h2⟩
  · exact ⟨h1, h2⟩

theorem trackInv_handleRadioEv (now : Nat) (s : TrackState) (e : RadioEv)
    (h : trackInv s) : trackInv (handleRadioEv now s e) := by
  have hfire := trackInv_fireTimerIfDue now s h
  cases e with
  | freqFrame hz =>
    simp only [handleRadioEv]
    set s1 := fireTimerIfDue now s with hs1
    have h2 : trackInv (if s1.lastFrequencyHz.isSome ∧ s1.lastFrequencyHz ≠ some hz
        then onRadioStateChanged now s1 else s1) := by
      split_ifs
      · exact trackInv_onRadioStateChanged now s1 hfire
      · exact hfire
    obtain ⟨ha, hb⟩ := h2
    exact ⟨fun hdl => ⟨by simp, (ha hdl).2⟩, hb⟩
  | modeFrame code =>
    simp only [handleRadioEv]
    set s1 := fireTimerIfDue now s with hs1
    have h2 : trackInv (if s1.lastModeCode.isSome ∧ s1.lastModeCode ≠ some code
        then onRadioStateChanged now s1 else s1) := by
      split_ifs
      · exact trackInv_onRadioStateChanged now s1 hfire
      · exact hfire
    obtain ⟨ha, hb⟩ := h2
    exact ⟨fun hdl => ⟨(ha hdl).1, by simp⟩, hb⟩

theorem trackInv_runRadioEvents (evs : List (Nat × RadioEv)) :
    ∀ s, trackInv s → trackInv (runRadioEvents s evs) := by
  induction evs with
  | nil => intro s h; exact h
  | cons te rest ih =>
    intro s h
    obtain ⟨t, e⟩ := te
    exact ih _ (trackInv_handleRadioEv t s e h)

theorem trackInv_flushTimer_reports (s : TrackState) (h : trackInv s) :
    ∀ r ∈ (flushTimer s).reports, r.2.1.isSome ∧ r.2.2.isSome := by
  obtain ⟨h1, h2⟩ := h
  cases hd : s.timerDeadline with
  | none =>
    have hred : flushTimer s = s := by simp [flushTimer, hd]
    rw [hred]; exact h2
  | some d =>
    have hred : flushTimer s =
        { s with timerDeadline := none,
                 reports := s.reports ++
                   [(d, s.lastFrequencyHz, s.lastModeCode)] } := by
      simp [flushTimer, hd]
    rw [hred]
    intro r hr
    simp only [List.mem_append, List.mem_singleton] at hr
    rcases hr with hr | hr
    · exact h2 r hr
    · subst hr
      have hb := h1 (by simp [hd])
      simpa using hb

/-- C10: starting from the initial state, no debounce timer is ever armed
unless both a frequency and a mode have been decoded, and every telemetry
report — including the one a still-pending timer would fire after silence —
carries a non-null frequency and a non-null mode. -/
theorem telemetry_reports_nonnull (evs : List (Nat × RadioEv)) :
    (∀ r ∈ (flushTimer (runRadioEvents initTrackState evs)).reports,
        r.2.1.isSome ∧ r.2.2.isSome) ∧
      ((runRadioEvents initTrackState evs).timerDeadline.isSome →
        (runRadioEvents initTrackState evs).lastFrequencyHz.isSome ∧
          (runRadioEvents initTrackState evs).lastModeCode.isSome) := by
  have h := trackInv_runRadioEvents evs initTrackState trackInv_init
  exact ⟨trackInv_flushTimer_reports _ h, h.1⟩

end IC7300
